import Mathlib

/-!
# SnTime: monotonic clock, sleep and wall clock

A shallow embedding of `time/include/sntime/sntime.h`, `time/src/nix/sntime.c`
and `time/src/win32/sntime.c`.

* Signed C integers are `Int`, unsigned ones are `Nat`; every conversion and
  every operation that can leave the range of its C type is wrapped
  explicitly (`toI64`, `toU32`, ...), in twos-complement fashion.
* C integer division and remainder truncate toward zero: `Int.tdiv`, `Int.tmod`.
* What the operating system answers (clock readings, the outcome of
  `nanosleep`, `gmtime_r`, `FileTimeToSystemTime`) is an argument of the
  embedded function; what the function asks of the operating system (the
  argument of `Sleep`, the successive requests given to `nanosleep`) is part
  of its result.
* The two platform files define the same names; they live in the namespaces
  `SnTime.Nix` and `SnTime.Win32`.
-/

namespace SnTime

/-! ## Machine integers -/

/-- Conversion to `int64_t`. -/
def toI64 (x : Int) : Int := (x + 9223372036854775808) % 18446744073709551616 - 9223372036854775808

/-- Conversion to `int32_t`. -/
def toI32 (x : Int) : Int := (x + 2147483648) % 4294967296 - 2147483648

/-- Conversion to `int16_t`. -/
def toI16 (x : Int) : Int := (x + 32768) % 65536 - 32768

/-- Conversion to `int8_t`. -/
def toI8 (x : Int) : Int := (x + 128) % 256 - 128

/-- Conversion to `uint64_t`. -/
def toU64 (x : Int) : Nat := (x % 18446744073709551616).toNat

/-- Conversion to `DWORD` (unsigned 32-bit). -/
def toU32 (x : Int) : Nat := (x % 4294967296).toNat

/-! ## Types of the header and of the operating system -/

/-- The C `struct timespec`. -/
structure timespec where
  tv_sec : Int
  tv_nsec : Int
  deriving DecidableEq, Repr

/-- The `snWallTime` of the header: `int64_t seconds; int32_t nanoseconds`. -/
structure snWallTime where
  seconds : Int
  nanoseconds : Int
  deriving DecidableEq, Repr

/-- The `snWallTimeUtc` of the header. -/
structure snWallTimeUtc where
  nanosecond : Int
  year : Int
  month : Int
  day : Int
  hour : Int
  minute : Int
  second : Int
  deriving DecidableEq, Repr

/-- The fields of the C `struct tm` that the code reads. -/
structure tm where
  tm_year : Int
  tm_mon : Int
  tm_mday : Int
  tm_hour : Int
  tm_min : Int
  tm_sec : Int
  deriving DecidableEq, Repr

/-- The Windows `FILETIME`: two `DWORD`s. -/
structure FILETIME where
  dwLowDateTime : Nat
  dwHighDateTime : Nat
  deriving DecidableEq, Repr

/-- The fields of the Windows `SYSTEMTIME` that the code reads (each a `WORD`). -/
structure SYSTEMTIME where
  wYear : Nat
  wMonth : Nat
  wDay : Nat
  wHour : Nat
  wMinute : Nat
  wSecond : Nat
  deriving DecidableEq, Repr

/-- What one call of `nanosleep(&ts, &ts)` can answer: `0`; or `-1` with
`errno = EINTR`, having written the remaining time; or `-1` with another
`errno`. -/
inductive NanosleepResult where
  | done : NanosleepResult
  | eintr (rem : timespec) : NanosleepResult
  | failed : NanosleepResult
  deriving DecidableEq, Repr

/-- What a run of a POSIX sleep function asked of the operating system: the
requests given to `nanosleep`, in order, and whether the function returned
(it has not when the last call is still pending). -/
structure SleepRun where
  calls : List timespec
  returned : Bool
  deriving DecidableEq, Repr

/-! ## The header: `sntime.h` -/

/-- `sn_wall_time_validate`: `t.nanoseconds >= 0 && t.nanoseconds < 1000000000`. -/
def sn_wall_time_validate (t : snWallTime) : Bool :=
  decide (t.nanoseconds ≥ 0) && decide (t.nanoseconds < 1000000000)

/-! ## The POSIX file: `nix/sntime.c` -/

namespace Nix

/-- `sn_time_now_ns`, `ts` being what `clock_gettime(CLOCK_MONOTONIC, &ts)` wrote:
`(snTimeNs)ts.tv_sec * 1000000000LL + ts.tv_nsec`. -/
def sn_time_now_ns (ts : timespec) : Int :=
  toI64 (toI64 (toI64 ts.tv_sec * 1000000000) + ts.tv_nsec)

/-- The loop `while (nanosleep(&ts, &ts) == -1 && errno == EINTR);` run against
the successive answers of `nanosleep`. Each iteration calls `nanosleep` with
the current `ts`; an interrupted call has overwritten `ts` with the remaining
time and the loop goes on; any other answer ends it. With no answer left the
last call is pending. -/
def nanosleep_loop : timespec → List NanosleepResult → SleepRun
  | ts, [] => ⟨[ts], false⟩
  | ts, NanosleepResult.eintr rem :: answers =>
    let r := nanosleep_loop rem answers
    ⟨ts :: r.calls, r.returned⟩
  | ts, NanosleepResult.done :: _ => ⟨[ts], true⟩
  | ts, NanosleepResult.failed :: _ => ⟨[ts], true⟩

/-- `sn_time_sleep_ns`. -/
def sn_time_sleep_ns (ns : Int) (answers : List NanosleepResult) : SleepRun :=
  if ns ≤ 0 then ⟨[], true⟩
  else nanosleep_loop ⟨Int.tdiv ns 1000000000, Int.tmod ns 1000000000⟩ answers

/-- `sn_time_sleep_ms`: `sn_time_sleep_ns(ms * 1000000LL)`. -/
def sn_time_sleep_ms (ms : Int) (answers : List NanosleepResult) : SleepRun :=
  sn_time_sleep_ns (toI64 (ms * 1000000)) answers

/-- `sn_wall_time_now`, `ts` being what `clock_gettime(CLOCK_REALTIME, &ts)` wrote. -/
def sn_wall_time_now (ts : timespec) : snWallTime :=
  { seconds := toI64 ts.tv_sec, nanoseconds := toI32 ts.tv_nsec }

/-- `sn_wall_time_to_utc`. The pointer `utc` is `none` when null and otherwise
holds the record it points to; the result is the returned `bool` and the
record after the call. `gmtime_r` answers `none` for a null return. -/
def sn_wall_time_to_utc (gmtime_r : Int → Option tm) (wall : snWallTime)
    (utc : Option snWallTimeUtc) : Bool × Option snWallTimeUtc :=
  match utc with
  | none => (false, none)
  | some old =>
    if !sn_wall_time_validate wall then (false, some old)
    else
      match gmtime_r wall.seconds with
      | none => (false, some old)
      | some t =>
        (true, some
          { year := toI16 (toI32 (t.tm_year + 1900))
            month := toI8 (toI32 (t.tm_mon + 1))
            day := toI8 t.tm_mday
            hour := toI8 t.tm_hour
            minute := toI8 t.tm_min
            second := toI8 t.tm_sec
            nanosecond := wall.nanoseconds })

end Nix

/-! ## The Windows file: `win32/sntime.c` -/

namespace Win32

/-- `sn_time_now_ns`, `counter` being what `QueryPerformanceCounter` wrote and
`qpc_freequency` the calibrated frequency:
`(counter.QuadPart * 1000000000ll) / qpc_freequency.QuadPart`. -/
def sn_time_now_ns (counter qpc_freequency : Int) : Int :=
  toI64 (Int.tdiv (toI64 (counter * 1000000000)) qpc_freequency)

/-- `sn_time_sleep_ns`: the `DWORD` given to `Sleep`, or `none` when `Sleep`
is not called. -/
def sn_time_sleep_ns (ns : Int) : Option Nat :=
  if ns ≤ 0 then none
  else
    let ms := Int.tdiv ns 1000000
    let ms := if ms = 0 then 1 else ms
    some (toU32 ms)

/-- `sn_time_sleep_ms`: the `DWORD` given to `Sleep`, or `none` when `Sleep`
is not called. -/
def sn_time_sleep_ms (ms : Int) : Option Nat :=
  if ms ≤ 0 then none else some (toU32 ms)

/-- `sn_wall_time_now`, `ft` being what `GetSystemTimePreciseAsFileTime` wrote. -/
def sn_wall_time_now (ft : FILETIME) : snWallTime :=
  let ticks := (((ft.dwHighDateTime % 4294967296) <<< 32) % 18446744073709551616)
    ||| (ft.dwLowDateTime % 4294967296)
  let ticks := (ticks + (18446744073709551616 - 116444736000000000)) % 18446744073709551616
  { seconds := toI64 (Int.ofNat (ticks / 10000000))
    nanoseconds := toI32 (Int.ofNat (((ticks % 10000000) * 100) % 18446744073709551616)) }

/-- `sn_wall_time_to_utc`. The pointer `utc` is `none` when null and otherwise
holds the record it points to; the result is the returned `bool` and the
record after the call. `FileTimeToSystemTime` answers `none` for `FALSE`. -/
def sn_wall_time_to_utc (FileTimeToSystemTime : FILETIME → Option SYSTEMTIME)
    (wall : snWallTime) (utc : Option snWallTimeUtc) : Bool × Option snWallTimeUtc :=
  match utc with
  | none => (false, none)
  | some old =>
    if !sn_wall_time_validate wall then (false, some old)
    else
      let ticks := (((toU64 wall.seconds * 10000000) % 18446744073709551616)
        + toU64 (Int.tdiv wall.nanoseconds 100)) % 18446744073709551616
      let ticks := (ticks + 116444736000000000) % 18446744073709551616
      let ft : FILETIME :=
        { dwLowDateTime := (ticks &&& 4294967295) % 4294967296
          dwHighDateTime := (ticks >>> 32) % 4294967296 }
      match FileTimeToSystemTime ft with
      | none => (false, some old)
      | some st =>
        (true, some
          { year := toI16 (Int.ofNat st.wYear)
            month := toI8 (Int.ofNat st.wMonth)
            day := toI8 (Int.ofNat st.wDay)
            hour := toI8 (Int.ofNat st.wHour)
            minute := toI8 (Int.ofNat st.wMinute)
            second := toI8 (Int.ofNat st.wSecond)
            nanosecond := wall.nanoseconds })

end Win32

/-! ## Properties -/

/-- A value inside the `int64_t` range is left alone by the conversion. -/
theorem toI64_eq_self (x : Int) (hlo : -9223372036854775808 ≤ x)
    (hhi : x ≤ 9223372036854775807) : toI64 x = x := by
  unfold toI64
  omega

/-- A value inside the `int32_t` range is left alone by the conversion. -/
theorem toI32_eq_self (x : Int) (hlo : -2147483648 ≤ x) (hhi : x ≤ 2147483647) :
    toI32 x = x := by
  unfold toI32
  omega

/-- The POSIX monotonic reading is `tv_sec * 10^9 + tv_nsec` whenever that
number is a non-negative `int64_t`. -/
theorem Nix.sn_time_now_ns_eq (ts : timespec) (hs : 0 ≤ ts.tv_sec) (hn : 0 ≤ ts.tv_nsec)
    (hfit : ts.tv_sec * 1000000000 + ts.tv_nsec ≤ 9223372036854775807) :
    Nix.sn_time_now_ns ts = ts.tv_sec * 1000000000 + ts.tv_nsec := by
  unfold Nix.sn_time_now_ns
  have h1 : toI64 ts.tv_sec = ts.tv_sec := toI64_eq_self _ (by omega) (by omega)
  rw [h1]
  have h2 : toI64 (ts.tv_sec * 1000000000) = ts.tv_sec * 1000000000 :=
    toI64_eq_self _ (by omega) (by omega)
  rw [h2]
  exact toI64_eq_self _ (by omega) (by omega)

/-- The validity test read as a proposition on the nanosecond field. -/
theorem sn_wall_time_validate_eq_true_iff (t : snWallTime) :
    sn_wall_time_validate t = true ↔ 0 ≤ t.nanoseconds ∧ t.nanoseconds ≤ 999999999 := by
  unfold sn_wall_time_validate
  simp only [Bool.and_eq_true, decide_eq_true_eq]
  omega

/-- The retry loop, run against `rems.length` interrupted calls followed by
one call that is not interrupted, asks for `ts` and then for each reported
remaining time, and returns. -/
theorem Nix.nanosleep_loop_interrupted_then_final (rems : List timespec) (ts : timespec)
    (last : NanosleepResult) (hlast : ∀ r, last ≠ NanosleepResult.eintr r)
    (later : List NanosleepResult) :
    Nix.nanosleep_loop ts (rems.map NanosleepResult.eintr ++ last :: later)
      = ⟨ts :: rems, true⟩ := by
  induction rems generalizing ts with
  | nil =>
    cases last with
    | done => rfl
    | failed => rfl
    | eintr r => exact absurd rfl (hlast r)
  | cons r rs ih =>
    show Nix.nanosleep_loop ts
      (NanosleepResult.eintr r :: (rs.map NanosleepResult.eintr ++ last :: later)) = _
    rw [Nix.nanosleep_loop, ih r]

/-- The retry loop, run against interrupted calls only, asks for `ts` and then
for each reported remaining time, and its last call is pending. -/
theorem Nix.nanosleep_loop_interrupted (rems : List timespec) (ts : timespec) :
    Nix.nanosleep_loop ts (rems.map NanosleepResult.eintr) = ⟨ts :: rems, false⟩ := by
  induction rems generalizing ts with
  | nil => rfl
  | cons r rs ih =>
    show Nix.nanosleep_loop ts (NanosleepResult.eintr r :: rs.map NanosleepResult.eintr) = _
    rw [Nix.nanosleep_loop, ih r]

/-! ### C1 -/

/-- C1 (fails on the code): on the Windows path, with frequency 10 MHz and the
two counter readings 9223372036 <= 9223372037, the product
`counter * 1000000000` leaves the signed 64-bit range for the later reading
and `sn_time_now_ns` returns a smaller (negative) value for it than for the
earlier one. -/
theorem win32_now_ns_goes_backwards :
    (0 : Int) < 10000000 ∧ (0 : Int) ≤ 9223372036 ∧ (9223372036 : Int) ≤ 9223372037 ∧
    Win32.sn_time_now_ns 9223372036 10000000 = 922337203600 ∧
    Win32.sn_time_now_ns 9223372037 10000000 = -922337203670 ∧
    Win32.sn_time_now_ns 9223372037 10000000 < Win32.sn_time_now_ns 9223372036 10000000 := by
  decide

/-- Supporting fact for C1: while `counter * 1000000000` stays inside the
signed 64-bit range, the Windows reading is monotone in the counter. -/
theorem win32_now_ns_monotone_without_overflow (c1 c2 f : Int) (hf : 0 < f)
    (h1 : 0 ≤ c1) (h12 : c1 ≤ c2) (hfit : c2 * 1000000000 ≤ 9223372036854775807) :
    Win32.sn_time_now_ns c1 f ≤ Win32.sn_time_now_ns c2 f := by
  unfold Win32.sn_time_now_ns
  have e1 : toI64 (c1 * 1000000000) = c1 * 1000000000 :=
    toI64_eq_self _ (by omega) (by omega)
  have e2 : toI64 (c2 * 1000000000) = c2 * 1000000000 :=
    toI64_eq_self _ (by omega) (by omega)
  rw [e1, e2]
  have n1 : 0 ≤ c1 * 1000000000 := by omega
  have n2 : 0 ≤ c2 * 1000000000 := by omega
  rw [Int.tdiv_eq_ediv n1 (le_of_lt hf), Int.tdiv_eq_ediv n2 (le_of_lt hf)]
  have q1 : 0 ≤ c1 * 1000000000 / f := Int.ediv_nonneg n1 (le_of_lt hf)
  have q2 : c2 * 1000000000 / f ≤ c2 * 1000000000 := Int.ediv_le_self _ n2
  have q12 : c1 * 1000000000 / f ≤ c2 * 1000000000 / f :=
    Int.ediv_le_ediv hf (by omega)
  rw [toI64_eq_self _ (by omega) (by omega), toI64_eq_self _ (by omega) (by omega)]
  exact q12

/-! ### C2 -/

/-- C2: on the POSIX path, for two clock readings with `tv_sec >= 0`,
`tv_nsec` in `[0, 999999999]` and `tv_sec * 10^9 + tv_nsec` inside the signed
64-bit range, if the first is lexicographically at most the second then
`sn_time_now_ns` of the first is at most that of the second, and strictly less
when the readings differ. -/
theorem nix_now_ns_monotone (a b : timespec)
    (has : 0 ≤ a.tv_sec) (han : 0 ≤ a.tv_nsec ∧ a.tv_nsec ≤ 999999999)
    (hbs : 0 ≤ b.tv_sec) (hbn : 0 ≤ b.tv_nsec ∧ b.tv_nsec ≤ 999999999)
    (hfa : a.tv_sec * 1000000000 + a.tv_nsec ≤ 9223372036854775807)
    (hfb : b.tv_sec * 1000000000 + b.tv_nsec ≤ 9223372036854775807)
    (hle : a.tv_sec < b.tv_sec ∨ (a.tv_sec = b.tv_sec ∧ a.tv_nsec ≤ b.tv_nsec)) :
    Nix.sn_time_now_ns a ≤ Nix.sn_time_now_ns b ∧
    (a ≠ b → Nix.sn_time_now_ns a < Nix.sn_time_now_ns b) := by
  rw [Nix.sn_time_now_ns_eq a has han.1 hfa, Nix.sn_time_now_ns_eq b hbs hbn.1 hfb]
  refine ⟨by omega, fun hne => ?_⟩
  have hfield : a.tv_sec ≠ b.tv_sec ∨ a.tv_nsec ≠ b.tv_nsec := by
    by_contra hcon
    push_neg at hcon
    apply hne
    cases a
    cases b
    simp only [timespec.mk.injEq]
    exact hcon
  omega

/-- Witness for C2: the readings (1 s, 999999999 ns) and (2 s, 0 ns). -/
theorem nix_now_ns_monotone_witness :
    Nix.sn_time_now_ns ⟨1, 999999999⟩ ≤ Nix.sn_time_now_ns ⟨2, 0⟩ ∧
    ((⟨1, 999999999⟩ : timespec) ≠ ⟨2, 0⟩ →
      Nix.sn_time_now_ns ⟨1, 999999999⟩ < Nix.sn_time_now_ns ⟨2, 0⟩) :=
  nix_now_ns_monotone ⟨1, 999999999⟩ ⟨2, 0⟩ (by decide) (by decide) (by decide) (by decide)
    (by decide) (by decide) (by decide)

/-! ### C3 -/

/-- C3 (fails on the code): on the Windows path a request of 1500000 ns is
divided down to 1 ms, so `Sleep` is asked for 1000000 ns, less than the
request. -/
theorem win32_sleep_ns_rounds_down :
    (0 : Int) < 1500000 ∧ Win32.sn_time_sleep_ns 1500000 = some 1 ∧
    ¬ (∀ ms : Nat, Win32.sn_time_sleep_ns 1500000 = some ms →
        (1500000 : Int) ≤ Int.ofNat ms * 1000000) := by
  refine ⟨by decide, by decide, fun h => ?_⟩
  have h1 := h 1 (by decide)
  revert h1
  decide

/-- Supporting fact for C3: the Windows path always calls `Sleep` for a
positive request, and the count covers the request when the request is a whole
number of milliseconds below 2^32 ms. -/
theorem win32_sleep_ns_covers_whole_ms (k : Int) (hk : 0 < k) (hk32 : k < 4294967296) :
    ∃ ms : Nat, Win32.sn_time_sleep_ns (k * 1000000) = some ms ∧
      k * 1000000 ≤ Int.ofNat ms * 1000000 := by
  refine ⟨k.toNat, ?_, ?_⟩
  · unfold Win32.sn_time_sleep_ns toU32
    have hpos : ¬ (k * 1000000 ≤ 0) := by omega
    have hdiv : Int.tdiv (k * 1000000) 1000000 = k := by
      rw [Int.tdiv_eq_ediv (by omega) (by omega)]
      omega
    simp only [hpos, if_false, hdiv]
    have hk0 : ¬ (k = 0) := by omega
    simp only [hk0, if_false]
    have : k % 4294967296 = k := by omega
    rw [this]
  · have : Int.ofNat k.toNat = k := by
      simp only [Int.ofNat_eq_coe]
      omega
    rw [this]

/-! ### C6 -/

/-- C6: `sn_wall_time_validate` returns true exactly when the nanosecond field
lies in `[0, 999999999]`; it returns false for -1 and for 1000000000; and two
timestamps with the same nanoseconds get the same answer whatever their
seconds. -/
theorem wall_time_validate_iff_nanoseconds_in_range :
    (∀ t : snWallTime,
      sn_wall_time_validate t = true ↔ 0 ≤ t.nanoseconds ∧ t.nanoseconds ≤ 999999999) ∧
    (∀ s : Int, sn_wall_time_validate ⟨s, -1⟩ = false) ∧
    (∀ s : Int, sn_wall_time_validate ⟨s, 1000000000⟩ = false) ∧
    (∀ s s2 n : Int, sn_wall_time_validate ⟨s, n⟩ = sn_wall_time_validate ⟨s2, n⟩) := by
  refine ⟨sn_wall_time_validate_eq_true_iff, ?_, ?_, ?_⟩
  · intro s
    rfl
  · intro s
    rfl
  · intro s s2 n
    rfl

/-! ### C4 and C5 -/

/-- The first request of the retry loop is the `ts` it was started with. -/
theorem Nix.nanosleep_loop_calls_head (ts : timespec) (answers : List NanosleepResult) :
    ∃ rest, (Nix.nanosleep_loop ts answers).calls = ts :: rest := by
  cases answers with
  | nil => exact ⟨[], rfl⟩
  | cons a rest =>
    cases a with
    | done => exact ⟨[], rfl⟩
    | failed => exact ⟨[], rfl⟩
    | eintr r => exact ⟨(Nix.nanosleep_loop r rest).calls, by rw [Nix.nanosleep_loop]⟩

/-- C4 (fails on the code): on the POSIX path `ms = 9223372036855` makes
`ms * 1000000` leave the signed 64-bit range, the forwarded duration is
negative and `nanosleep` is never called; on the Windows path
`ms = 4294967296` is cut to the `DWORD` 0, which is less than `ms`. -/
theorem sleep_ms_large_request_not_covered :
    ((0 : Int) < 9223372036855 ∧ (9223372036855 : Int) ≤ 9223372036854775807 ∧
      ∀ answers, Nix.sn_time_sleep_ms 9223372036855 answers = ⟨[], true⟩) ∧
    ((0 : Int) < 4294967296 ∧ Win32.sn_time_sleep_ms 4294967296 = some 0) := by
  refine ⟨⟨by decide, by decide, fun answers => ?_⟩, by decide, by decide⟩
  rfl

/-- Supporting fact for C4: while `ms * 1000000` fits in 64 bits (POSIX) and
`ms` fits in 32 bits (Windows), a positive `ms` is covered on both paths. -/
theorem sleep_ms_covered_in_range (ms : Int) (hms : 0 < ms) :
    (ms ≤ 9223372036854 → ∀ answers, ∃ rest,
      (Nix.sn_time_sleep_ms ms answers).calls
        = ⟨ms * 1000000 / 1000000000, ms * 1000000 % 1000000000⟩ :: rest ∧
      (ms * 1000000 / 1000000000) * 1000000000 + ms * 1000000 % 1000000000
        = ms * 1000000) ∧
    (ms ≤ 4294967295 → Win32.sn_time_sleep_ms ms = some ms.toNat) := by
  constructor
  · intro hfit answers
    unfold Nix.sn_time_sleep_ms Nix.sn_time_sleep_ns
    rw [toI64_eq_self _ (by omega) (by omega)]
    have hpos : ¬ (ms * 1000000 ≤ 0) := by omega
    simp only [hpos, if_false]
    rw [Int.tdiv_eq_ediv (by omega) (by omega), Int.tmod_eq_emod (by omega) (by omega)]
    obtain ⟨rest, hrest⟩ := Nix.nanosleep_loop_calls_head
      ⟨ms * 1000000 / 1000000000, ms * 1000000 % 1000000000⟩ answers
    exact ⟨rest, hrest, by omega⟩
  · intro hfit
    unfold Win32.sn_time_sleep_ms toU32
    have hpos : ¬ (ms ≤ 0) := by omega
    simp only [hpos, if_false]
    have : ms % 4294967296 = ms := by omega
    rw [this]

/-- C5 (fails on the code): on the POSIX path `ms = -9223372036855` makes
`ms * 1000000` leave the signed 64-bit range, the forwarded duration is the
positive 9223372036854551616 and `nanosleep` is called, first with
9223372036 s and 854551616 ns. -/
theorem nix_sleep_ms_negative_request_sleeps :
    (-9223372036855 : Int) ≤ 0 ∧ (-9223372036854775808 : Int) ≤ -9223372036855 ∧
    ∀ answers, ∃ rest,
      (Nix.sn_time_sleep_ms (-9223372036855) answers).calls
        = ⟨9223372036, 854551616⟩ :: rest := by
  refine ⟨by decide, by decide, fun answers => ?_⟩
  exact Nix.nanosleep_loop_calls_head ⟨9223372036, 854551616⟩ answers

/-- Supporting fact for C5: the Windows path never calls `Sleep` for a
non-positive `ms`, and the POSIX path never calls `nanosleep` for a
non-positive `ms` whose product with 1000000 fits in 64 bits. -/
theorem sleep_ms_nonpositive_in_range (ms : Int) (hms : ms ≤ 0) :
    Win32.sn_time_sleep_ms ms = none ∧
    (-9223372036854 ≤ ms → ∀ answers, Nix.sn_time_sleep_ms ms answers = ⟨[], true⟩) := by
  constructor
  · unfold Win32.sn_time_sleep_ms
    simp only [hms, if_true]
  · intro hfit answers
    unfold Nix.sn_time_sleep_ms Nix.sn_time_sleep_ns
    rw [toI64_eq_self _ (by omega) (by omega)]
    have hle : ms * 1000000 ≤ 0 := by omega
    simp only [hle, if_true]

/-! ### C7 -/

/-- C7: for a wall timestamp whose nanoseconds lie outside `[0, 999999999]`,
`sn_wall_time_to_utc` returns false on the POSIX and on the Windows path,
whatever `gmtime_r` and `FileTimeToSystemTime` would answer, and the
caller-side record is as it was before the call. -/
theorem wall_time_to_utc_rejects_invalid (gmtime_r : Int → Option tm)
    (FileTimeToSystemTime : FILETIME → Option SYSTEMTIME) (wall : snWallTime)
    (utc : Option snWallTimeUtc)
    (hbad : ¬ (0 ≤ wall.nanoseconds ∧ wall.nanoseconds ≤ 999999999)) :
    Nix.sn_wall_time_to_utc gmtime_r wall utc = (false, utc) ∧
    Win32.sn_wall_time_to_utc FileTimeToSystemTime wall utc = (false, utc) := by
  have hv : sn_wall_time_validate wall = false := by
    cases hval : sn_wall_time_validate wall with
    | false => rfl
    | true => exact absurd ((sn_wall_time_validate_eq_true_iff wall).1 hval) hbad
  cases utc with
  | none => exact ⟨rfl, rfl⟩
  | some old =>
    constructor
    · simp only [Nix.sn_wall_time_to_utc, hv, Bool.not_false, if_true]
    · simp only [Win32.sn_wall_time_to_utc, hv, Bool.not_false, if_true]

/-- Witness for C7: nanoseconds = 1000000000, primitives that would succeed. -/
theorem wall_time_to_utc_rejects_invalid_witness :
    Nix.sn_wall_time_to_utc (fun _ => some ⟨126, 9, 31, 12, 0, 0⟩) ⟨1793448000, 1000000000⟩
        (some ⟨1, 2, 3, 4, 5, 6, 7⟩) = (false, some ⟨1, 2, 3, 4, 5, 6, 7⟩) ∧
    Win32.sn_wall_time_to_utc (fun _ => some ⟨2026, 10, 31, 12, 0, 0⟩)
        ⟨1793448000, 1000000000⟩ (some ⟨1, 2, 3, 4, 5, 6, 7⟩)
      = (false, some ⟨1, 2, 3, 4, 5, 6, 7⟩) :=
  wall_time_to_utc_rejects_invalid (fun _ => some ⟨126, 9, 31, 12, 0, 0⟩)
    (fun _ => some ⟨2026, 10, 31, 12, 0, 0⟩) ⟨1793448000, 1000000000⟩
    (some ⟨1, 2, 3, 4, 5, 6, 7⟩) (by decide)

/-! ### C8 -/

/-- C8: on the POSIX and on the Windows path, whatever `gmtime_r` and
`FileTimeToSystemTime` answer, whenever `sn_wall_time_to_utc` returns true the
record it wrote has `nanosecond` equal to the `nanoseconds` of the input, with
no rounding, and that value lies in `[0, 999999999]`. -/
theorem wall_time_to_utc_copies_nanoseconds (gmtime_r : Int → Option tm)
    (FileTimeToSystemTime : FILETIME → Option SYSTEMTIME) (wall : snWallTime)
    (utc : Option snWallTimeUtc) :
    ((Nix.sn_wall_time_to_utc gmtime_r wall utc).1 = true →
      ∃ out, (Nix.sn_wall_time_to_utc gmtime_r wall utc).2 = some out ∧
        out.nanosecond = wall.nanoseconds ∧ 0 ≤ out.nanosecond ∧ out.nanosecond ≤ 999999999) ∧
    ((Win32.sn_wall_time_to_utc FileTimeToSystemTime wall utc).1 = true →
      ∃ out, (Win32.sn_wall_time_to_utc FileTimeToSystemTime wall utc).2 = some out ∧
        out.nanosecond = wall.nanoseconds ∧ 0 ≤ out.nanosecond ∧ out.nanosecond ≤ 999999999) := by
  constructor
  · intro hret
    unfold Nix.sn_wall_time_to_utc at hret ⊢
    cases utc with
    | none => simp at hret
    | some old =>
      cases hv : sn_wall_time_validate wall with
      | false => simp [hv] at hret
      | true =>
        have hrange := (sn_wall_time_validate_eq_true_iff wall).1 hv
        cases hg : gmtime_r wall.seconds with
        | none => simp [hv, hg] at hret
        | some t =>
          simp only [hv, hg, Bool.not_true]
          exact ⟨_, rfl, rfl, hrange.1, hrange.2⟩
  · intro hret
    unfold Win32.sn_wall_time_to_utc at hret ⊢
    cases utc with
    | none => simp at hret
    | some old =>
      cases hv : sn_wall_time_validate wall with
      | false => simp [hv] at hret
      | true =>
        have hrange := (sn_wall_time_validate_eq_true_iff wall).1 hv
        simp only [hv, Bool.not_true, Bool.false_eq_true, if_false] at hret ⊢
        generalize FileTimeToSystemTime _ = answer at hret ⊢
        cases answer with
        | none => simp at hret
        | some st => exact ⟨_, rfl, rfl, hrange.1, hrange.2⟩

/-- Witness for C8: the timestamp (1793448000 s, 123456789 ns), which is not a
multiple of 100 ns, with primitives that succeed. -/
theorem wall_time_to_utc_copies_nanoseconds_witness :
    (∃ out, (Nix.sn_wall_time_to_utc (fun _ => some ⟨126, 9, 31, 12, 0, 0⟩)
        ⟨1793448000, 123456789⟩ (some ⟨0, 0, 0, 0, 0, 0, 0⟩)).2 = some out ∧
      out.nanosecond = 123456789 ∧ 0 ≤ out.nanosecond ∧ out.nanosecond ≤ 999999999) ∧
    (∃ out, (Win32.sn_wall_time_to_utc (fun _ => some ⟨2026, 10, 31, 12, 0, 0⟩)
        ⟨1793448000, 123456789⟩ (some ⟨0, 0, 0, 0, 0, 0, 0⟩)).2 = some out ∧
      out.nanosecond = 123456789 ∧ 0 ≤ out.nanosecond ∧ out.nanosecond ≤ 999999999) :=
  ⟨(wall_time_to_utc_copies_nanoseconds (fun _ => some ⟨126, 9, 31, 12, 0, 0⟩)
      (fun _ => some ⟨2026, 10, 31, 12, 0, 0⟩) ⟨1793448000, 123456789⟩
      (some ⟨0, 0, 0, 0, 0, 0, 0⟩)).1 (by decide),
   (wall_time_to_utc_copies_nanoseconds (fun _ => some ⟨126, 9, 31, 12, 0, 0⟩)
      (fun _ => some ⟨2026, 10, 31, 12, 0, 0⟩) ⟨1793448000, 123456789⟩
      (some ⟨0, 0, 0, 0, 0, 0, 0⟩)).2 (by decide)⟩

/-! ### C9 -/

/-- C9: every timestamp `sn_wall_time_now` produces passes
`sn_wall_time_validate`: on the Windows path for every `FILETIME` (the epoch
subtraction may wrap), where the nanoseconds field also lies in
`[0, 999999999]`; on the POSIX path for every reading whose `tv_nsec` lies in
`[0, 999999999]`. -/
theorem wall_time_now_validates (ft : FILETIME) (ts : timespec)
    (hns : 0 ≤ ts.tv_nsec ∧ ts.tv_nsec ≤ 999999999) :
    (sn_wall_time_validate (Win32.sn_wall_time_now ft) = true ∧
      0 ≤ (Win32.sn_wall_time_now ft).nanoseconds ∧
      (Win32.sn_wall_time_now ft).nanoseconds ≤ 999999999) ∧
    sn_wall_time_validate (Nix.sn_wall_time_now ts) = true := by
  have hcast : ∀ x : Nat,
      0 ≤ toI32 (Int.ofNat ((x % 10000000 * 100) % 18446744073709551616)) ∧
      toI32 (Int.ofNat ((x % 10000000 * 100) % 18446744073709551616)) ≤ 999999999 := by
    intro x
    have hlt : x % 10000000 < 10000000 := Nat.mod_lt _ (by decide)
    have hsmall : (x % 10000000 * 100) % 18446744073709551616 = x % 10000000 * 100 :=
      Nat.mod_eq_of_lt (by omega)
    rw [hsmall]
    generalize x % 10000000 = r at hlt
    simp only [Int.ofNat_eq_coe]
    rw [toI32_eq_self _ (by omega) (by omega)]
    omega
  have hwin : 0 ≤ (Win32.sn_wall_time_now ft).nanoseconds ∧
      (Win32.sn_wall_time_now ft).nanoseconds ≤ 999999999 := hcast _
  refine ⟨⟨(sn_wall_time_validate_eq_true_iff _).2 hwin, hwin⟩, ?_⟩
  rw [sn_wall_time_validate_eq_true_iff]
  simp only [Nix.sn_wall_time_now]
  rw [toI32_eq_self _ (by omega) (by omega)]
  exact hns

/-- Witness for C9: the all-zero `FILETIME` (year 1601, before the Unix epoch,
so the subtraction wraps) and the POSIX reading (1793448000 s, 999999999 ns). -/
theorem wall_time_now_validates_witness :
    (sn_wall_time_validate (Win32.sn_wall_time_now ⟨0, 0⟩) = true ∧
      0 ≤ (Win32.sn_wall_time_now ⟨0, 0⟩).nanoseconds ∧
      (Win32.sn_wall_time_now ⟨0, 0⟩).nanoseconds ≤ 999999999) ∧
    sn_wall_time_validate (Nix.sn_wall_time_now ⟨1793448000, 999999999⟩) = true :=
  wall_time_now_validates ⟨0, 0⟩ ⟨1793448000, 999999999⟩ (by decide)

/-! ### C10 -/

/-- C10: on the POSIX path, for every `ns > 0`, `sn_time_sleep_ns` first calls
`nanosleep` with `tv_sec = ns / 10^9` and `tv_nsec = ns % 10^9` (their
recombination is `ns`, and `tv_nsec` lies in `[0, 999999999]`); when the calls
are interrupted and report the remaining times `rems` in turn, the next calls
are made with exactly those times; the function returns right after the first
call that is not interrupted (it makes no later call), and as long as every
call is interrupted it has not returned. -/
theorem nix_sleep_ns_retries_with_remaining (ns : Int) (hns : 0 < ns)
    (rems : List timespec) (last : NanosleepResult)
    (hlast : ∀ r, last ≠ NanosleepResult.eintr r) (later : List NanosleepResult) :
    (ns / 1000000000) * 1000000000 + ns % 1000000000 = ns ∧
    0 ≤ ns % 1000000000 ∧ ns % 1000000000 ≤ 999999999 ∧
    Nix.sn_time_sleep_ns ns (rems.map NanosleepResult.eintr ++ last :: later)
      = ⟨⟨ns / 1000000000, ns % 1000000000⟩ :: rems, true⟩ ∧
    Nix.sn_time_sleep_ns ns (rems.map NanosleepResult.eintr)
      = ⟨⟨ns / 1000000000, ns % 1000000000⟩ :: rems, false⟩ := by
  have hpos : ¬ (ns ≤ 0) := by omega
  have hdiv : Int.tdiv ns 1000000000 = ns / 1000000000 :=
    Int.tdiv_eq_ediv (by omega) (by omega)
  have hmod : Int.tmod ns 1000000000 = ns % 1000000000 :=
    Int.tmod_eq_emod (by omega) (by omega)
  refine ⟨by omega, by omega, by omega, ?_, ?_⟩
  · unfold Nix.sn_time_sleep_ns
    simp only [hpos, if_false, hdiv, hmod]
    exact Nix.nanosleep_loop_interrupted_then_final rems _ last hlast later
  · unfold Nix.sn_time_sleep_ns
    simp only [hpos, if_false, hdiv, hmod]
    exact Nix.nanosleep_loop_interrupted rems _

/-- Witness for C10: a request of 2500000000 ns, interrupted twice (1.5 s and
then 0.25 s remaining) and then completed; a further answer is never
consumed. -/
theorem nix_sleep_ns_retries_with_remaining_witness :
    ((2500000000 : Int) / 1000000000) * 1000000000 + 2500000000 % 1000000000 = 2500000000 ∧
    (0 : Int) ≤ 2500000000 % 1000000000 ∧ (2500000000 : Int) % 1000000000 ≤ 999999999 ∧
    Nix.sn_time_sleep_ns 2500000000
        ([⟨1, 500000000⟩, ⟨0, 250000000⟩].map NanosleepResult.eintr
          ++ NanosleepResult.done :: [NanosleepResult.eintr ⟨7, 7⟩])
      = ⟨⟨2500000000 / 1000000000, 2500000000 % 1000000000⟩
          :: [⟨1, 500000000⟩, ⟨0, 250000000⟩], true⟩ ∧
    Nix.sn_time_sleep_ns 2500000000
        ([⟨1, 500000000⟩, ⟨0, 250000000⟩].map NanosleepResult.eintr)
      = ⟨⟨2500000000 / 1000000000, 2500000000 % 1000000000⟩
          :: [⟨1, 500000000⟩, ⟨0, 250000000⟩], false⟩ :=
  nix_sleep_ns_retries_with_remaining 2500000000 (by decide)
    [⟨1, 500000000⟩, ⟨0, 250000000⟩] NanosleepResult.done
    (fun r h => NanosleepResult.noConfusion h) [NanosleepResult.eintr ⟨7, 7⟩]

end SnTime
